import Mathlib

/-!
Verification of the acheron pool-based allocator
(src/include/acheron/__memory/allocator.hpp).

The development is a shallow embedding of the allocator: machine
integers (size_t, uint64_t, uint8_t, uint16_t) are natural numbers
with explicit reduction modulo 2^64, 2^16 or 2^8 exactly where the
C++ performs an implicit conversion; pointers are natural-number
addresses with 0 playing the role of nullptr; the process memory
that holds block headers is an association list from addresses to
header records; mmap is modelled as an always-succeeding bump
allocator over fresh page-aligned regions (the out-of-memory path
throws in the source and is outside the properties treated here).
Reading a block header from an address that was never written is
modelled as reading an all-zero header, which fails the magic check.
-/

namespace Acheron

/-! Constants, from allocator.hpp lines 234-252. -/

def U64 : Nat := 2 ^ 64

def CACHE_LINE_SIZE : Nat := 64

def PAGE_SIZE : Nat := 4096

def ALIGNMENT : Nat := CACHE_LINE_SIZE

def TINY_THRESHOLD : Nat := 64

def LARGE_THRESHOLD : Nat := 1024 * 1024

def SIZE_CLASSES : Nat := 32

def HEADER_MAGIC : Nat := 0xDEADBEEF12345678

def SIZE_MASK : Nat := 0x0000FFFFFFFFFFFF

def CLASS_MASK : Nat := 0x00FF000000000000

def MAGIC_MASK : Nat := 0xF000000000000000

def MAGIC_VALUE : Nat := 0xA000000000000000

def FREE_FLAG : Nat := 2 ^ 63

def MMAP_FLAG : Nat := 2 ^ 62

/-- sizeof(BlockHeader): two uint64_t fields plus one 8-byte pointer. -/
def HEADER_SIZE : Nat := 24

/-! Block header, allocator.hpp lines 254-320.  The C++ object has a
packed uint64_t data word, a uint64_t magic word and an intrusive
next pointer (modelled as an address, 0 = nullptr). -/

structure BlockHeader where
  data : Nat
  magic : Nat
  next : Nat
deriving DecidableEq

/-- init(size, size_class, is_free), lines 261-269.  size_class is a
uint8_t parameter, so the value is reduced mod 2^8 at the call
boundary. -/
def BlockHeader.init (size : Nat) (size_class : Nat) (is_free : Bool) : BlockHeader :=
  { magic := HEADER_MAGIC
    data := (size &&& SIZE_MASK) |||
            ((size_class % 2 ^ 8) <<< 48) |||
            ((cond is_free 1 0) <<< 63) |||
            MAGIC_VALUE
    next := 0 }

/-- size(), line 289-292. -/
def BlockHeader.size (h : BlockHeader) : Nat :=
  h.data &&& SIZE_MASK

/-- is_valid(), lines 272-277. -/
def BlockHeader.is_valid (h : BlockHeader) : Bool :=
  (h.magic == HEADER_MAGIC) &&
  ((h.data &&& MAGIC_MASK) == MAGIC_VALUE) &&
  (h.size ≤ 2 ^ 47)

/-- size_class(), lines 294-297. -/
def BlockHeader.size_class (h : BlockHeader) : Nat :=
  (h.data &&& CLASS_MASK) >>> 48

/-- is_free(), lines 279-282. -/
def BlockHeader.is_free (h : BlockHeader) : Bool :=
  (h.data &&& FREE_FLAG) != 0

/-- is_mmap(), lines 284-287. -/
def BlockHeader.is_mmap (h : BlockHeader) : Bool :=
  (h.data &&& MMAP_FLAG) != 0

/-- set_free(b), lines 300-303.  The uint64_t complement of FREE_FLAG
is every bit except bit 63. -/
def BlockHeader.set_free (h : BlockHeader) (b : Bool) : BlockHeader :=
  { h with data := (h.data &&& (U64 - 1 - FREE_FLAG)) ||| ((cond b 1 0) <<< 63) }

/-- set_mmap(b), lines 305-308. -/
def BlockHeader.set_mmap (h : BlockHeader) (b : Bool) : BlockHeader :=
  { h with data := (h.data &&& (U64 - 1 - MMAP_FLAG)) ||| ((cond b 1 0) <<< 62) }

/-! The process memory holding headers: an association list from
addresses to headers, newest write first. -/

def Heap : Type := List (Nat × BlockHeader)

instance : DecidableEq Heap := inferInstanceAs (DecidableEq (List (Nat × BlockHeader)))

def heapGet (heap : Heap) (a : Nat) : Option BlockHeader :=
  match heap.find? (fun e => e.1 == a) with
  | some e => some e.2
  | none => none

/-- Reading a header from an address never written yields the all-zero
header (its magic is 0, which fails every validity test). -/
def heapGetD (heap : Heap) (a : Nat) : BlockHeader :=
  (heapGet heap a).getD ⟨0, 0, 0⟩

def heapSet (heap : Heap) (a : Nat) (b : BlockHeader) : Heap :=
  (a, b) :: heap

/-- is_aligned(ptr), lines 310-319: the pointer must be 0 mod 64 and
the 8 bytes at ptr - sizeof(BlockHeader) + 8 (the magic field of the
putative header) must equal HEADER_MAGIC. -/
def BlockHeader.is_aligned (heap : Heap) (p : Nat) : Bool :=
  if (p &&& (ALIGNMENT - 1)) != 0 then false
  else (heapGetD heap (p - HEADER_SIZE)).magic == HEADER_MAGIC

/-! Size class table, lines 322-327 and 364-379.  The three struct
fields are uint16_t, so every stored value is reduced mod 2^16. -/

structure SizeClass where
  size : Nat
  slot : Nat
  blocks : Nat
deriving DecidableEq

/-- One iteration of init_size_classes (lines 364-379).  The locals
size, alignment and slot_size are size_t; the bit-trick
(x + alignment - 1) and not (alignment - 1) rounds up to the
power-of-two alignment, where the uint64_t complement of
alignment - 1 is 2^64 - alignment. -/
def initSizeClass (i : Nat) : SizeClass :=
  let size := 2 ^ (i + 3)
  let alignment := if size > ALIGNMENT then size else ALIGNMENT
  let slot_size := (size + HEADER_SIZE + alignment - 1) &&& (U64 - alignment)
  { size := size % 2 ^ 16
    slot := slot_size % 2 ^ 16
    blocks := (PAGE_SIZE / slot_size) % 2 ^ 16 }

def init_size_classes : List SizeClass :=
  (List.range SIZE_CLASSES).map initSizeClass

/-- Number of binary digits of x, with explicit fuel so that the
kernel can evaluate it; 64 units of fuel cover every uint64_t. -/
def bitLen : Nat → Nat → Nat
  | 0, _ => 0
  | fuel + 1, x => if x = 0 then 0 else bitLen fuel (x / 2) + 1

/-- Model of __builtin_clzll for a nonzero 64-bit argument: the count
of leading zero bits, 64 - bit-length. -/
def clzll (x : Nat) : Nat := 64 - bitLen 64 x

/-- One bit-smearing step of the next-power-of-two computation in
get_size_class: n |= n >> s. -/
def smearStep (s n : Nat) : Nat := n ||| (n >>> s)

/-- get_size_class(size), lines 381-397.  size is a size_t; size - 1
wraps modulo 2^64, written (size + 2^64 - 1) % 2^64 so that the
C wrap-around at size = 0 is represented.  The return type is
uint8_t, hence the mod 2^8. -/
def get_size_class (size : Nat) : Nat :=
  if size ≤ TINY_THRESHOLD then
    (((size + (U64 - 1)) % U64) >>> 3) % 2 ^ 8
  else
    let n0 := (size + (U64 - 1)) % U64
    let n6 := smearStep 32 (smearStep 16 (smearStep 8 (smearStep 4 (smearStep 2 (smearStep 1 n0)))))
    ((63 - clzll ((n6 + 1) % U64)) - 3) % 2 ^ 8

/-! Pools and allocator state, lines 329-362.  A Pool owns one
page-aligned mapping; the chain pools[sc] -> next -> ... is a list
whose head is the most recently created pool. -/

structure Pool where
  memory : Nat
  cap : Nat
  free_list : Nat
deriving DecidableEq

structure AllocState where
  size_classes : List SizeClass
  free_lists : List Nat
  pools : List (List Pool)
  heap : Heap
  next_addr : Nat
deriving DecidableEq

/-- State of a freshly constructed allocator: the constructor runs
init_size_classes and every free list and pool chain is empty.
Fresh mmap regions are handed out from address 4096 upward. -/
def init_state : AllocState :=
  { size_classes := init_size_classes
    free_lists := List.replicate SIZE_CLASSES 0
    pools := List.replicate SIZE_CLASSES []
    heap := []
    next_addr := PAGE_SIZE }

/-- allocate_pool(size_class), lines 399-424: map one fresh page,
push the new pool on the chain, then thread sc.blocks header slots
(at memory + i * sc.slot for i = 0 .. blocks-1) onto the pool's own
free list, each header stamped init(sc.size, size_class, true) and
prepended, so the final head is the last slot. -/
def allocate_pool (sc_idx : Nat) (st : AllocState) : AllocState :=
  let mem := st.next_addr
  let sc := st.size_classes.getD sc_idx ⟨0, 0, 0⟩
  let threaded := (List.range sc.blocks).foldl
    (fun (acc : Heap × Nat) i =>
      let addr := mem + i * sc.slot
      let hdr := { BlockHeader.init sc.size sc_idx true with next := acc.2 }
      (heapSet acc.1 addr hdr, addr))
    (st.heap, 0)
  let newPool : Pool := { memory := mem, cap := PAGE_SIZE, free_list := threaded.2 }
  { st with
    heap := threaded.1
    pools := st.pools.set sc_idx (newPool :: st.pools.getD sc_idx [])
    next_addr := st.next_addr + PAGE_SIZE }

/-- allocate_from_size_class(size_class), lines 426-468.  Returns the
address just past the popped header, or none.  The two inner
null-re-checks of a pointer that was just tested non-null (lines
431-436 and 453-460) are dead code and have no counterpart here. -/
def allocate_from_size_class (sc_idx : Nat) (st : AllocState) : Option Nat × AllocState :=
  let fl := st.free_lists.getD sc_idx 0
  if fl ≠ 0 then
    let header := heapGetD st.heap fl
    (some (fl + HEADER_SIZE),
     { st with
       free_lists := st.free_lists.set sc_idx header.next
       heap := heapSet st.heap fl (header.set_free false) })
  else
    let needPool :=
      match (st.pools.getD sc_idx []).head? with
      | none => true
      | some pl => pl.free_list == 0
    let st1 := if needPool then allocate_pool sc_idx st else st
    match (st1.pools.getD sc_idx []).head? with
    | some pl =>
      if pl.free_list ≠ 0 then
        let hAddr := pl.free_list
        let header := heapGetD st1.heap hAddr
        (some (hAddr + HEADER_SIZE),
         { st1 with
           pools := st1.pools.set sc_idx
             ({ pl with free_list := header.next } :: (st1.pools.getD sc_idx []).tail)
           heap := heapSet st1.heap hAddr (header.set_free false) })
      else (none, st1)
    | none => (none, st1)

/-- allocate_large(size), lines 470-489, with mmap succeeding: map a
fresh page-rounded region of size + sizeof(BlockHeader) bytes, stamp
init(size, 255, false) then set_mmap(true), return past the header. -/
def allocate_large (size : Nat) (st : AllocState) : Option Nat × AllocState :=
  let total_size := size + HEADER_SIZE
  let aligned_size := (total_size + PAGE_SIZE - 1) &&& (U64 - PAGE_SIZE)
  let mem := st.next_addr
  let header := (BlockHeader.init size 255 false).set_mmap true
  (some (mem + HEADER_SIZE),
   { st with
     heap := heapSet st.heap mem header
     next_addr := st.next_addr + aligned_size })

/-- allocate(n) for an element type of sizeofT bytes, lines 126-136.
bytes_needed is the size_t product n * sizeof(T), i.e. the true
product reduced mod 2^64. -/
def allocate (n sizeofT : Nat) (st : AllocState) : Option Nat × AllocState :=
  if n = 0 then (none, st)
  else
    let bytes_needed := (n * sizeofT) % U64
    if bytes_needed ≥ LARGE_THRESHOLD then allocate_large bytes_needed st
    else allocate_from_size_class (get_size_class bytes_needed) st

/-- deallocate(p, n), lines 149-178.  n is unused by the source.  The
munmap of an mmap-backed block removes every header stored inside
the page-rounded region. -/
def deallocate (p : Nat) (st : AllocState) : AllocState :=
  if p = 0 then st
  else if !BlockHeader.is_aligned st.heap p then st
  else
    let hAddr := p - HEADER_SIZE
    let header := heapGetD st.heap hAddr
    if !header.is_valid then st
    else if header.is_mmap then
      let total_size := header.size + HEADER_SIZE
      let aligned_size := (total_size + PAGE_SIZE - 1) &&& (U64 - PAGE_SIZE)
      { st with heap := st.heap.filter (fun e => !(hAddr ≤ e.1 && e.1 < hAddr + aligned_size)) }
    else
      let sc := header.size_class
      if sc ≥ SIZE_CLASSES then st
      else
        let header1 := { header.set_free true with next := st.free_lists.getD sc 0 }
        { st with
          heap := heapSet st.heap hAddr header1
          free_lists := st.free_lists.set sc hAddr }

/-! Helper lemmas on the bit-level representation. -/

theorem land_shifted_mask (x k m : Nat) :
    x &&& ((2 ^ m - 1) <<< k) = ((x >>> k) % 2 ^ m) <<< k := by
  apply Nat.eq_of_testBit_eq
  intro i
  simp only [Nat.testBit_and, Nat.testBit_shiftLeft, Nat.testBit_two_pow_sub_one,
    Nat.testBit_mod_two_pow, Nat.testBit_shiftRight]
  by_cases h : k ≤ i
  · have h2 : k + (i - k) = i := by omega
    rw [h2]
    by_cases h3 : i - k < m <;> simp [h, h3, Bool.and_comm]
  · simp [h]

theorem size_of_init (s c : Nat) (f : Bool) :
    (BlockHeader.init s c f).size = s % 2 ^ 48 := by
  apply Nat.eq_of_testBit_eq
  intro i
  have hm : SIZE_MASK = 2 ^ 48 - 1 := by decide
  have hv : MAGIC_VALUE = 5 <<< 61 := by decide
  simp only [BlockHeader.size, BlockHeader.init, hm, hv, Nat.testBit_and, Nat.testBit_or,
    Nat.testBit_two_pow_sub_one, Nat.testBit_shiftLeft, Nat.testBit_mod_two_pow]
  by_cases h : i < 48
  · have h1 : ¬ (48 ≤ i) := by omega
    have h2 : ¬ (61 ≤ i) := by omega
    have h3 : ¬ (63 ≤ i) := by omega
    simp [h, h1, h2, h3, Bool.and_comm]
  · simp [h]

theorem testBit_c_high (c j : Nat) (hj : 8 ≤ j) : Nat.testBit (c % 2 ^ 8) j = false :=
  Nat.testBit_lt_two_pow
    (Nat.lt_of_lt_of_le (Nat.mod_lt _ (by norm_num)) (Nat.pow_le_pow_right (by norm_num) hj))

theorem testBit_fbit_high (f : Bool) (j : Nat) (hj : 1 ≤ j) :
    Nat.testBit (cond f 1 0) j = false := by
  cases f
  · simp
  · exact Nat.testBit_lt_two_pow
      (Nat.lt_of_lt_of_le (by norm_num) (Nat.pow_le_pow_right (by norm_num) hj))

theorem data_testBit_63 (s c : Nat) (f : Bool) :
    Nat.testBit (BlockHeader.init s c f).data 63 = true := by
  have hm : SIZE_MASK = 2 ^ 48 - 1 := by decide
  have hv : MAGIC_VALUE = 5 <<< 61 := by decide
  simp [BlockHeader.init, hm, hv, Nat.testBit_or, Nat.testBit_shiftLeft,
    Nat.and_pow_two_sub_one_eq_mod, Nat.testBit_mod_two_pow]
  exact Or.inr (by decide)

theorem data_testBit_62 (s c : Nat) (f : Bool) :
    Nat.testBit (BlockHeader.init s c f).data 62 = false := by
  have hm : SIZE_MASK = 2 ^ 48 - 1 := by decide
  have hv : MAGIC_VALUE = 5 <<< 61 := by decide
  simp [BlockHeader.init, hm, hv, Nat.testBit_or, Nat.testBit_shiftLeft,
    Nat.and_pow_two_sub_one_eq_mod, Nat.testBit_mod_two_pow,
    testBit_c_high, testBit_fbit_high]
  exact ⟨⟨fun _ => by decide, testBit_c_high _ _ (by norm_num)⟩, by decide⟩

theorem magicfield_of_init (s c : Nat) (f : Bool) :
    (BlockHeader.init s c f).data &&& MAGIC_MASK = MAGIC_VALUE := by
  apply Nat.eq_of_testBit_eq
  intro i
  have hm : SIZE_MASK = 2 ^ 48 - 1 := by decide
  have hk : MAGIC_MASK = (2 ^ 4 - 1) <<< 60 := by decide
  have hv : MAGIC_VALUE = 5 <<< 61 := by decide
  simp only [BlockHeader.init, hm, hk, hv, Nat.testBit_and, Nat.testBit_or,
    Nat.testBit_shiftLeft, Nat.testBit_two_pow_sub_one, Nat.testBit_mod_two_pow,
    Nat.and_pow_two_sub_one_eq_mod]
  rcases Nat.lt_or_ge i 60 with h | h
  · have h1 : ¬ (60 ≤ i) := by omega
    have h2 : ¬ (61 ≤ i) := by omega
    simp [h1, h2]
  · rcases Nat.lt_or_ge i 64 with h2 | h2
    · interval_cases i <;>
        simp [testBit_c_high, testBit_fbit_high] <;> cases f <;> decide
    · have h1 : ¬ (i < 48) := by omega
      have h3 : ¬ (i - 60 < 4) := by omega
      have hc : Nat.testBit (c % 2 ^ 8) (i - 48) = false := testBit_c_high _ _ (by omega)
      have hf : Nat.testBit (cond f 1 0) (i - 63) = false := testBit_fbit_high _ _ (by omega)
      have h5a : (5 : Nat) < 2 ^ (i - 61) :=
        Nat.lt_of_lt_of_le (by norm_num : (5 : Nat) < 2 ^ 3)
          (Nat.pow_le_pow_right (by norm_num) (by omega))
      have h5 : Nat.testBit 5 (i - 61) = false := Nat.testBit_lt_two_pow h5a
      simp [h1, h3, hc, hf, h5]

theorem shiftLeft_shiftRight_cancel (y k : Nat) : (y <<< k) >>> k = y := by
  rw [Nat.shiftLeft_eq, Nat.shiftRight_eq_div_pow]
  exact Nat.mul_div_cancel _ (Nat.pos_pow_of_pos _ (by norm_num))

theorem size_class_of_init (s c : Nat) (f : Bool) :
    (BlockHeader.init s c f).size_class = c % 2 ^ 8 := by
  have hk : CLASS_MASK = (2 ^ 8 - 1) <<< 48 := by decide
  unfold BlockHeader.size_class
  rw [hk, land_shifted_mask, shiftLeft_shiftRight_cancel]
  apply Nat.eq_of_testBit_eq
  intro i
  have hm : SIZE_MASK = 2 ^ 48 - 1 := by decide
  have hv : MAGIC_VALUE = 5 <<< 61 := by decide
  simp only [BlockHeader.init, hm, hv, Nat.testBit_mod_two_pow, Nat.testBit_shiftRight,
    Nat.testBit_or, Nat.testBit_shiftLeft, Nat.and_pow_two_sub_one_eq_mod]
  by_cases h : i < 8
  · have c1 : ¬ (48 + i < 48) := by omega
    have c2 : 48 ≤ 48 + i := by omega
    have c3 : 48 + i - 48 = i := by omega
    have c4 : ¬ (63 ≤ 48 + i) := by omega
    have c5 : ¬ (61 ≤ 48 + i) := by omega
    simp [c1, c2, c3, c4, c5, h]
  · simp [h]

theorem is_free_of_init (s c : Nat) (f : Bool) :
    (BlockHeader.init s c f).is_free = true := by
  unfold BlockHeader.is_free FREE_FLAG
  rw [Nat.and_two_pow, data_testBit_63]
  decide

theorem is_mmap_of_init (s c : Nat) (f : Bool) :
    (BlockHeader.init s c f).is_mmap = false := by
  unfold BlockHeader.is_mmap MMAP_FLAG
  rw [Nat.and_two_pow, data_testBit_62]
  decide

theorem is_valid_of_init (s c : Nat) (f : Bool) (hs : s ≤ 2 ^ 47) :
    (BlockHeader.init s c f).is_valid = true := by
  simp only [BlockHeader.is_valid, magicfield_of_init, size_of_init]
  simp only [BlockHeader.init, Bool.and_eq_true, beq_iff_eq, decide_eq_true_eq]
  refine ⟨⟨?_, ?_⟩, ?_⟩
  · trivial
  · trivial
  · omega

/-! Helper lemmas for the next-power-of-two computation. -/

theorem bitLen_zero (fuel : Nat) : bitLen fuel 0 = 0 := by
  cases fuel <;> simp [bitLen]

theorem bitLen_eq (fuel : Nat) : ∀ x, 0 < x → x < 2 ^ fuel → bitLen fuel x = Nat.log2 x + 1 := by
  induction fuel with
  | zero => intro x hx h; omega
  | succ fuel ih =>
    intro x hx h
    rcases Nat.lt_or_ge x 2 with h2 | h2
    · have hx1 : x = 1 := by omega
      subst hx1
      have : Nat.log2 1 = 0 := Nat.log2_two_pow (n := 0)
      simp [bitLen, bitLen_zero, this]
    · have hd : x / 2 < 2 ^ fuel := by
        rw [Nat.pow_succ] at h
        omega
      have hdp : 0 < x / 2 := by omega
      have hlog : Nat.log2 x = Nat.log2 (x / 2) + 1 := by
        rw [Nat.log2]
        simp [h2]
      rw [show bitLen (fuel + 1) x = bitLen fuel (x / 2) + 1 by simp [bitLen]; omega,
        ih (x / 2) hdp hd, hlog]

theorem clzll_eq_log2 (x : Nat) (h1 : 0 < x) (h2 : x < 2 ^ 64) :
    clzll x = 63 - Nat.log2 x := by
  unfold clzll
  rw [bitLen_eq 64 x h1 h2]
  have : Nat.log2 x < 64 := (Nat.log2_lt (by omega)).mpr h2
  omega

theorem smearStep_lt (s m b : Nat) (h : m < 2 ^ b) : smearStep s m < 2 ^ b := by
  apply Nat.or_lt_two_pow h
  calc m >>> s ≤ m := by
        rw [Nat.shiftRight_eq_div_pow]
        exact Nat.div_le_self _ _
    _ < 2 ^ b := h

theorem smearStep_fill (k t s m : Nat) (hs : s ≤ t + 1)
    (hf : ∀ i, i ≤ k → k ≤ i + t → m.testBit i = true) :
    ∀ i, i ≤ k → k ≤ i + (t + s) → (smearStep s m).testBit i = true := by
  intro i hik hk
  unfold smearStep
  rw [Nat.testBit_or]
  rcases le_or_lt k (i + t) with h | h
  · rw [hf i hik h]
    simp
  · have h1 : s + i ≤ k := by omega
    have h2 : k ≤ (s + i) + t := by omega
    have := hf (s + i) h1 h2
    rw [Nat.testBit_shiftRight, this]
    simp

theorem smear_all (k n : Nat) (hk : k ≤ 63) (h1 : 2 ^ k ≤ n) (h2 : n < 2 ^ (k + 1)) :
    smearStep 32 (smearStep 16 (smearStep 8 (smearStep 4 (smearStep 2 (smearStep 1 n))))) =
      2 ^ (k + 1) - 1 := by
  have hpe : (2 : Nat) ^ (k + 1) = 2 * 2 ^ k := by
    rw [Nat.pow_succ]
    ring
  have hb : ∀ i, i ≤ k → k ≤ i + 0 → n.testBit i = true := by
    intro i hik hk0
    have hik2 : i = k := by omega
    subst hik2
    have hdiv : n / 2 ^ i = 1 := Nat.div_eq_of_lt_le (by omega) (by omega)
    rw [Nat.testBit_to_div_mod, hdiv]
    simp
  have f1 := smearStep_fill k 0 1 n (by omega) hb
  have f2 := smearStep_fill k 1 2 _ (by omega) f1
  have f3 := smearStep_fill k 3 4 _ (by omega) f2
  have f4 := smearStep_fill k 7 8 _ (by omega) f3
  have f5 := smearStep_fill k 15 16 _ (by omega) f4
  have f6 := smearStep_fill k 31 32 _ (by omega) f5
  have b6 : smearStep 32 (smearStep 16 (smearStep 8 (smearStep 4 (smearStep 2 (smearStep 1 n))))) <
      2 ^ (k + 1) :=
    smearStep_lt _ _ _ (smearStep_lt _ _ _ (smearStep_lt _ _ _ (smearStep_lt _ _ _
      (smearStep_lt _ _ _ (smearStep_lt _ _ _ h2)))))
  apply Nat.eq_of_testBit_eq
  intro i
  rcases le_or_lt i k with h | h
  · rw [f6 i h (by omega)]
    rw [Nat.testBit_two_pow_sub_one]
    simp
    omega
  · have hle : (2 : Nat) ^ (k + 1) ≤ 2 ^ i := Nat.pow_le_pow_right (by norm_num) (by omega)
    rw [Nat.testBit_lt_two_pow (by omega), Nat.testBit_two_pow_sub_one]
    simp
    omega

theorem gsc_large (s k : Nat) (h64 : 64 < s) (hk1 : 2 ^ k < s) (hk2 : s ≤ 2 ^ (k + 1))
    (h47 : s ≤ 2 ^ 47) : get_size_class s = (k + 1) - 3 := by
  have p64 : (2 : Nat) ^ 64 = 18446744073709551616 := by norm_num
  have p47 : (2 : Nat) ^ 47 = 140737488355328 := by norm_num
  have hkb : k < 47 := by
    by_contra hcon
    push_neg at hcon
    have h2 : (2 : Nat) ^ 47 ≤ 2 ^ k := Nat.pow_le_pow_right (by norm_num) hcon
    omega
  have hk6 : 6 ≤ k := by
    by_contra hcon
    push_neg at hcon
    have h2 : (2 : Nat) ^ (k + 1) ≤ 2 ^ 6 := Nat.pow_le_pow_right (by norm_num) (by omega)
    have h3 : (2 : Nat) ^ 6 = 64 := by norm_num
    omega
  have hTT : ¬ s ≤ TINY_THRESHOLD := by
    unfold TINY_THRESHOLD
    omega
  unfold get_size_class
  rw [if_neg hTT]
  have hn0 : (s + (U64 - 1)) % U64 = s - 1 := by
    unfold U64
    have he : s + (2 ^ 64 - 1) = (s - 1) + 2 ^ 64 := by omega
    rw [he, Nat.add_mod_right]
    exact Nat.mod_eq_of_lt (by omega)
  rw [hn0]
  have hs1a : 2 ^ k ≤ s - 1 := by omega
  have hs1b : s - 1 < 2 ^ (k + 1) := by omega
  show (63 - clzll
      ((smearStep 32 (smearStep 16 (smearStep 8 (smearStep 4 (smearStep 2 (smearStep 1 (s - 1))))))
        + 1) % U64) - 3) % 2 ^ 8 = k + 1 - 3
  rw [smear_all k (s - 1) (by omega) hs1a hs1b]
  have hpos : (0 : Nat) < 2 ^ (k + 1) := Nat.pos_pow_of_pos _ (by norm_num)
  have he2 : 2 ^ (k + 1) - 1 + 1 = 2 ^ (k + 1) := by omega
  rw [he2]
  have hlt : (2 : Nat) ^ (k + 1) < 2 ^ 64 := Nat.pow_lt_pow_right (by norm_num) (by omega)
  have hm : 2 ^ (k + 1) % U64 = 2 ^ (k + 1) := Nat.mod_eq_of_lt hlt
  rw [hm, clzll_eq_log2 _ hpos hlt, Nat.log2_two_pow]
  have h63 : 63 - (63 - (k + 1)) = k + 1 := by omega
  rw [h63]
  exact Nat.mod_eq_of_lt (by omega)

theorem gsc_tiny : ∀ s, s ≤ 64 → 1 ≤ s → get_size_class s = (s - 1) / 8 := by
  decide

/-! Helper lemmas about allocate and deallocate. -/

theorem allocate_small (n sizeofT : Nat) (st : AllocState) (hn : n ≠ 0)
    (hb : (n * sizeofT) % U64 < LARGE_THRESHOLD) :
    allocate n sizeofT st = allocate_from_size_class (get_size_class ((n * sizeofT) % U64)) st := by
  unfold allocate
  rw [if_neg hn, if_neg (by omega)]

theorem C10_aux : ∀ w, w ≤ 64 → 1 ≤ w →
    (allocate_from_size_class (get_size_class w) init_state).1.isSome = true ∧
    get_size_class w < 8 ∧
    (heapGetD (allocate_from_size_class (get_size_class w) init_state).2.heap
      (((allocate_from_size_class (get_size_class w) init_state).1.getD 0) - HEADER_SIZE)).size =
      (init_state.size_classes.getD (get_size_class w) ⟨0, 0, 0⟩).size ∧
    (heapGetD (allocate_from_size_class (get_size_class w) init_state).2.heap
      (((allocate_from_size_class (get_size_class w) init_state).1.getD 0) - HEADER_SIZE)).size ≤
      1024 := by
  decide

/-! Theorems. -/

/-- C1.  Evaluation of the code at the failing inputs: on the pool
path (1-byte request, 1-byte element type, fresh allocator) allocate
returns pointer 8152, which is 24 mod 64 and hence not 64-byte
aligned, and the header immediately before it fails is_valid
(set_free(false) cleared bit 63, which MAGIC_MASK covers); on the
large mmap path (2^20-byte request) allocate returns pointer 4120,
again 24 mod 64, and the header fails is_valid (set_mmap(true) set
bit 62 inside MAGIC_MASK).  This refutes both parts of the claim on
both paths. -/
theorem C1_code_eval :
    (allocate 1 1 init_state).1 = some 8152 ∧
    8152 % 64 = 24 ∧
    (heapGetD (allocate 1 1 init_state).2.heap (8152 - HEADER_SIZE)).is_valid = false ∧
    (allocate (2 ^ 20) 1 init_state).1 = some 4120 ∧
    4120 % 64 = 24 ∧
    (heapGetD (allocate (2 ^ 20) 1 init_state).2.heap (4120 - HEADER_SIZE)).is_valid = false := by
  decide

/-- C2.  Evaluation of the code at the failing input: a 3000-byte
request (n = 3000, 1-byte element type) is classified into size
class 9, whose slot size 8192 exceeds the 4096-byte pool, so the
pool is created with zero blocks and allocate returns null even
though every mmap call succeeded, contradicting the claim that null
is returned only for n = 0. -/
theorem C2_code_eval :
    (allocate 3000 1 init_state).1 = none ∧ (3000 : Nat) ≠ 0 := by
  decide

/-- C3.  Evaluation of the code at the failing input: after a
successful pool allocation returning pointer 8152, deallocate(8152)
leaves the allocator state completely unchanged (the pointer is
24 mod 64, so the is_aligned guard rejects it): the header is never
marked free and never reaches the free list, every free list is
still empty, and the following allocate of the same size succeeds
only by drawing the different block 8088 from the pool, not by
reusing the freed one. -/
theorem C3_code_eval :
    (allocate 1 1 init_state).1 = some 8152 ∧
    deallocate 8152 (allocate 1 1 init_state).2 = (allocate 1 1 init_state).2 ∧
    (heapGetD (allocate 1 1 init_state).2.heap 8128).is_free = false ∧
    (allocate 1 1 (deallocate 8152 (allocate 1 1 init_state).2)).1 = some 8088 ∧
    (8088 : Nat) ≠ 8152 := by
  decide

/-- C4.  Evaluation of the code at the failing input: a header
stamped by init(8, 0, true) is valid, but set_free(false) makes
is_valid return false (FREE_FLAG is bit 63, inside the top nibble
that MAGIC_MASK compares against MAGIC_VALUE = 0xA000...), and
set_mmap(true) likewise makes it false (MMAP_FLAG is bit 62, also
inside MAGIC_MASK).  The flag mutators therefore do perturb the
validity material, refuting the claimed invariant. -/
theorem C4_code_eval :
    (BlockHeader.init 8 0 true).is_valid = true ∧
    ((BlockHeader.init 8 0 true).set_free false).is_valid = false ∧
    ((BlockHeader.init 8 0 true).set_mmap true).is_valid = false := by
  decide

/-- C6.  Evaluation of the code at the failing input: a request of
2^20 - 1 bytes is below LARGE_THRESHOLD and is routed to the
size-class pool path, but that path returns null (class 17 has zero
blocks per page), so there is no returned pointer whose header
could show a false mmap flag; a request of exactly 2^20 bytes goes
to the mmap path and its header has the mmap flag set, and a
64-byte pool request that does succeed yields a header with the
mmap flag clear. -/
theorem C6_code_eval :
    ((2 ^ 20 - 1) : Nat) < LARGE_THRESHOLD ∧
    (allocate (2 ^ 20 - 1) 1 init_state).1 = none ∧
    (allocate (2 ^ 20) 1 init_state).1 = some 4120 ∧
    (heapGetD (allocate (2 ^ 20) 1 init_state).2.heap 4096).is_mmap = true ∧
    (allocate 64 1 init_state).1 = some 6168 ∧
    (heapGetD (allocate 64 1 init_state).2.heap 6144).is_mmap = false := by
  decide

/-- C5, counterexample.  init(8, 0, false) stamps the free flag as
false, yet is_free() reads true, because MAGIC_VALUE = 0xA000... has
bit 63 set and bit 63 is FREE_FLAG; and a size of 2^48 - 1, inside
the claimed 48-bit range and stored exactly by init, nevertheless
fails is_valid, which only accepts sizes up to 2^47. -/
theorem C5_counterexample :
    (BlockHeader.init 8 0 false).is_free = true ∧
    (BlockHeader.init (2 ^ 48 - 1) 0 true).size = 2 ^ 48 - 1 ∧
    (BlockHeader.init (2 ^ 48 - 1) 0 true).is_valid = false := by
  decide

/-- C5, amended.  Immediately after init(size, c, f) with
size ≤ 2^47: is_valid() is true, is_free() is true regardless of the
stamped f (bit 63 of MAGIC_VALUE coincides with FREE_FLAG),
is_mmap() is false, size() returns the stamped size and size_class()
returns c reduced to its uint8_t value. -/
theorem C5_init_accessors (s c : Nat) (f : Bool) (hs : s ≤ 2 ^ 47) :
    (BlockHeader.init s c f).is_valid = true ∧
    (BlockHeader.init s c f).is_free = true ∧
    (BlockHeader.init s c f).is_mmap = false ∧
    (BlockHeader.init s c f).size = s ∧
    (BlockHeader.init s c f).size_class = c % 2 ^ 8 :=
  ⟨is_valid_of_init s c f hs, is_free_of_init s c f, is_mmap_of_init s c f,
    by rw [size_of_init]; exact Nat.mod_eq_of_lt (by omega),
    size_class_of_init s c f⟩

/-- C5, witness: the amended statement evaluated at
init(8, 3, false). -/
theorem C5_init_accessors_witness :
    (8 : Nat) ≤ 2 ^ 47 ∧
    ((BlockHeader.init 8 3 false).is_valid = true ∧
     (BlockHeader.init 8 3 false).is_free = true ∧
     (BlockHeader.init 8 3 false).is_mmap = false ∧
     (BlockHeader.init 8 3 false).size = 8 ∧
     (BlockHeader.init 8 3 false).size_class = 3 % 2 ^ 8) :=
  ⟨by norm_num, C5_init_accessors 8 3 false (by norm_num)⟩

/-- C7, counterexample.  The table entry for class 13 stores nominal
size 0, not the claimed 2^(13+3) = 65536: the SizeClass fields are
uint16_t and 65536 truncates to 0. -/
theorem C7_counterexample :
    (initSizeClass 13).size = 0 ∧ (2 : Nat) ^ (13 + 3) = 65536 ∧ (0 : Nat) ≠ 65536 := by
  decide

/-- C7, amended.  For every class index i in 0..31 the table entry
holds the claimed values reduced mod 2^16 (the struct fields are
uint16_t): size = 2^(i+3) mod 2^16, slot = (2^(i+3) + header size
rounded up to the alignment max(64, 2^(i+3))) mod 2^16, and blocks =
4096 divided by the untruncated slot size.  For i ≤ 11 the stored
size and slot agree with the claim verbatim. -/
theorem C7_table_truncated : ∀ i, i < 32 →
    (initSizeClass i).size = 2 ^ (i + 3) % 2 ^ 16 ∧
    (initSizeClass i).slot =
      ((2 ^ (i + 3) + HEADER_SIZE + max ALIGNMENT (2 ^ (i + 3)) - 1) /
        max ALIGNMENT (2 ^ (i + 3)) * max ALIGNMENT (2 ^ (i + 3))) % 2 ^ 16 ∧
    (initSizeClass i).blocks =
      PAGE_SIZE / ((2 ^ (i + 3) + HEADER_SIZE + max ALIGNMENT (2 ^ (i + 3)) - 1) /
        max ALIGNMENT (2 ^ (i + 3)) * max ALIGNMENT (2 ^ (i + 3))) := by
  decide

/-- C7, witness: the amended statement evaluated at class 12, where
the slot truncation first bites (slot 65536 stored as 0). -/
theorem C7_table_truncated_witness :
    (initSizeClass 12).size = 2 ^ (12 + 3) % 2 ^ 16 ∧
    (initSizeClass 12).slot =
      ((2 ^ (12 + 3) + HEADER_SIZE + max ALIGNMENT (2 ^ (12 + 3)) - 1) /
        max ALIGNMENT (2 ^ (12 + 3)) * max ALIGNMENT (2 ^ (12 + 3))) % 2 ^ 16 ∧
    (initSizeClass 12).blocks =
      PAGE_SIZE / ((2 ^ (12 + 3) + HEADER_SIZE + max ALIGNMENT (2 ^ (12 + 3)) - 1) /
        max ALIGNMENT (2 ^ (12 + 3)) * max ALIGNMENT (2 ^ (12 + 3))) :=
  C7_table_truncated 12 (by decide)

/-- C8, counterexample.  get_size_class(2^35) returns 32, exceeding
the last valid class index 31: the code contains no clamp. -/
theorem C8_counterexample :
    get_size_class (2 ^ 35) = 32 ∧ ¬ get_size_class (2 ^ 35) ≤ 31 := by
  decide

/-- C8, amended.  get_size_class is a pure function of the byte
count: for 1 ≤ size ≤ 64 it returns (size - 1) / 8, and for larger
sizes (within the 48-bit domain accepted by the header) it returns
floor(log2(next power of two of size)) - 3, with no clamping, where
the next power of two of size is the 2^(k+1) with
2^k < size ≤ 2^(k+1). -/
theorem C8_classification :
    (∀ s, 1 ≤ s → s ≤ 64 → get_size_class s = (s - 1) / 8) ∧
    (∀ s k, 64 < s → s ≤ 2 ^ 47 → 2 ^ k < s → s ≤ 2 ^ (k + 1) →
      get_size_class s = (k + 1) - 3) :=
  ⟨fun s h1 h2 => gsc_tiny s h2 h1, fun s k h64 h47 hk1 hk2 => gsc_large s k h64 hk1 hk2 h47⟩

/-- C8, witness: the amended statement evaluated at sizes 9 (tiny
branch, class 1) and 100 (smearing branch, next power of two 128,
class log2(128) - 3 = 4). -/
theorem C8_classification_witness :
    get_size_class 9 = 1 ∧ get_size_class 100 = 4 := by
  constructor
  · exact C8_classification.1 9 (by decide) (by decide)
  · have h := C8_classification.2 100 6 (by norm_num) (by norm_num) (by norm_num) (by norm_num)
    simpa using h

/-- C9.  deallocate is a silent no-op leaving the entire allocator
state (free lists, pool chains, heap) unchanged whenever the pointer
is null, the pointer is not 64-byte aligned, or the header just
before it fails the magic/marker/size-range validity check. -/
theorem C9_deallocate_invalid_noop (st : AllocState) (p : Nat)
    (h : p = 0 ∨ p % 64 ≠ 0 ∨ (heapGetD st.heap (p - HEADER_SIZE)).is_valid = false) :
    deallocate p st = st := by
  unfold deallocate
  rcases h with h | h | h
  · simp [h]
  · have hp : p ≠ 0 := by omega
    have ha : BlockHeader.is_aligned st.heap p = false := by
      unfold BlockHeader.is_aligned
      have hmask : ALIGNMENT - 1 = 2 ^ 6 - 1 := by decide
      rw [hmask, Nat.and_pow_two_sub_one_eq_mod]
      have h64 : (2 : Nat) ^ 6 = 64 := by norm_num
      rw [h64]
      simp [h]
    simp [hp, ha]
  · by_cases hp : p = 0
    · simp [hp]
    · by_cases ha : BlockHeader.is_aligned st.heap p = true
      · simp [hp, ha, h]
      · have ha2 : BlockHeader.is_aligned st.heap p = false := by
          revert ha
          cases BlockHeader.is_aligned st.heap p <;> simp
        simp [hp, ha2]

/-- C9, witness: the theorem applied to the null pointer and to the
misaligned pointer 24 on a fresh allocator. -/
theorem C9_deallocate_invalid_noop_witness :
    deallocate 0 init_state = init_state ∧ deallocate 24 init_state = init_state :=
  ⟨C9_deallocate_invalid_noop init_state 0 (Or.inl rfl),
    C9_deallocate_invalid_noop init_state 24 (Or.inr (Or.inl (by decide)))⟩

/-- C10.  allocate computes the byte count as n * sizeof(T) reduced
mod 2^64; whenever the true product is at least 2^64 but its
wrapped value w is between 1 and 64, the request is classified into
a tiny size class (index below 8) and served successfully with a
block whose header records only the tiny class's nominal payload,
strictly smaller than the requested n * sizeof(T) bytes, with no
failure reported. -/
theorem C10_wraparound (n sizeofT w : Nat) (hn : 0 < n)
    (hw : (n * sizeofT) % U64 = w) (h1 : 1 ≤ w) (h2 : w ≤ 64)
    (hwrap : 2 ^ 64 ≤ n * sizeofT) :
    (allocate n sizeofT init_state).1.isSome = true ∧
    get_size_class w < 8 ∧
    (heapGetD (allocate n sizeofT init_state).2.heap
      (((allocate n sizeofT init_state).1.getD 0) - HEADER_SIZE)).size =
      (init_state.size_classes.getD (get_size_class w) ⟨0, 0, 0⟩).size ∧
    (heapGetD (allocate n sizeofT init_state).2.heap
      (((allocate n sizeofT init_state).1.getD 0) - HEADER_SIZE)).size < n * sizeofT := by
  have hb : (n * sizeofT) % U64 < LARGE_THRESHOLD := by
    rw [hw]
    unfold LARGE_THRESHOLD
    omega
  rw [allocate_small n sizeofT init_state (by omega) hb, hw]
  obtain ⟨hsome, hlt8, hsz, hle⟩ := C10_aux w h2 h1
  refine ⟨hsome, hlt8, hsz, ?_⟩
  have hp64 : (2 : Nat) ^ 64 = 18446744073709551616 := by norm_num
  omega

/-- C10, witness: the claim's own example, n = 2^62 + 4 with a
4-byte element type, whose product wraps to 16 bytes and is served
from tiny class 1 with a 16-byte block. -/
theorem C10_wraparound_witness :
    (0 < 2 ^ 62 + 4 ∧ ((2 ^ 62 + 4) * 4) % U64 = 16 ∧ (1 : Nat) ≤ 16 ∧ (16 : Nat) ≤ 64 ∧
      2 ^ 64 ≤ (2 ^ 62 + 4) * 4) ∧
    ((allocate (2 ^ 62 + 4) 4 init_state).1.isSome = true ∧
     get_size_class 16 < 8 ∧
     (heapGetD (allocate (2 ^ 62 + 4) 4 init_state).2.heap
       (((allocate (2 ^ 62 + 4) 4 init_state).1.getD 0) - HEADER_SIZE)).size =
       (init_state.size_classes.getD (get_size_class 16) ⟨0, 0, 0⟩).size ∧
     (heapGetD (allocate (2 ^ 62 + 4) 4 init_state).2.heap
       (((allocate (2 ^ 62 + 4) 4 init_state).1.getD 0) - HEADER_SIZE)).size <
       (2 ^ 62 + 4) * 4) :=
  ⟨⟨by norm_num, by decide, by norm_num, by norm_num, by norm_num⟩,
    C10_wraparound (2 ^ 62 + 4) 4 16 (by norm_num) (by decide) (by norm_num) (by norm_num)
      (by norm_num)⟩

end Acheron
